import Mathlib

/-!
# fts-elastic plugin: settings resolution and lifecycle hooks

A shallow embedding of `src/fts-elastic-plugin.c`:

* `fts_elastic_plugin_init_settings` (settings-string resolution),
* `fts_elastic_mail_user_create` / `fts_elastic_mail_user_created` (user hook),
* `fts_elastic_mail_precache` (virtual-mailbox watermark).

C strings are lists of characters (the bytes before the terminating NUL), a
pointer that may be `NULL` is an `Option`, and a function that writes through a
pointer returns the final contents of the pointee next to its return code.
The Dovecot / libc routines the file calls (`strcmp`, `strncmp`,
`t_strsplit_spaces`, `str_to_uint`, `mail_user_plugin_getenv`, `p_new`) are
embedded from their library definitions.
-/

namespace FtsElastic

/-- A C string: the characters in front of the terminating NUL. -/
abbrev CStr := List Char

/-! ## libc / Dovecot library routines used by the plugin -/

/-- Largest value of C `unsigned int` (32 bits). -/
def UINT_MAX : Nat := 4294967295

/-- Largest value of C `uintmax_t` (64 bits). -/
def UINTMAX_MAX : Nat := 18446744073709551615

/-- libc `strncmp`: compares at most `n` characters; the end of a string is
its NUL, which is smaller than every character.  Only the sign matters. -/
def strncmp : CStr → CStr → Nat → Int
  | _, _, 0 => 0
  | [], [], _ + 1 => 0
  | [], _ :: _, _ + 1 => -1
  | _ :: _, [], _ + 1 => 1
  | a :: as, b :: bs, n + 1 =>
    if a = b then strncmp as bs n else if a.toNat < b.toNat then -1 else 1

/-- libc `strcmp`. -/
def strcmp : CStr → CStr → Int
  | [], [] => 0
  | [], _ :: _ => -1
  | _ :: _, [] => 1
  | a :: as, b :: bs =>
    if a = b then strcmp as bs else if a.toNat < b.toNat then -1 else 1

/-- libc `strchr(separators, c) != NULL` for a character `c` other than NUL. -/
def strchr (separators : CStr) (c : Char) : Bool :=
  separators.contains c

/-- The walk of Dovecot's `split_str` (strfuncs.c) with `spaces = TRUE`:
`cur` is the token being read, in reverse.  A separator closes the token
being read if there is one; runs of separators, leading and trailing
separators produce no token. -/
def split_str_walk (separators : CStr) : CStr → CStr → List CStr
  | [], cur => if cur.isEmpty then [] else [cur.reverse]
  | c :: rest, cur =>
    if strchr separators c then
      if cur.isEmpty then split_str_walk separators rest []
      else cur.reverse :: split_str_walk separators rest []
    else split_str_walk separators rest (c :: cur)

/-- Dovecot `t_strsplit_spaces(data, separators)`: the NULL-terminated array
of non-empty tokens of `data`, as a list. -/
def t_strsplit_spaces (data separators : CStr) : List CStr :=
  split_str_walk separators data []

/-- Test `*str >= '0' && *str <= '9'` of strnum.c. -/
def is_digit (c : Char) : Bool :=
  decide ('0'.toNat ≤ c.toNat) && decide (c.toNat ≤ '9'.toNat)

/-- The loop of Dovecot `str_parse_uintmax` (strnum.c): `c` is the digit at
`*str`, `rest` the string after it, `n` the value read so far.  Gives the
value and the unread rest (`*endp_r`), or `none` for the `-1` of an overflow
of `uintmax_t`. -/
def str_parse_uintmax_loop : Nat → Char → CStr → Option (Nat × CStr)
  | n, c, rest =>
    if n ≥ UINTMAX_MAX / 10 ∧
        (n > UINTMAX_MAX / 10 ∨ c.toNat - '0'.toNat > UINTMAX_MAX % 10) then none
    else
      match rest with
      | [] => some (n * 10 + (c.toNat - '0'.toNat), [])
      | d :: rest' =>
        if is_digit d then str_parse_uintmax_loop (n * 10 + (c.toNat - '0'.toNat)) d rest'
        else some (n * 10 + (c.toNat - '0'.toNat), d :: rest')

/-- Dovecot `str_parse_uintmax`: fails unless the string starts with a digit. -/
def str_parse_uintmax : CStr → Option (Nat × CStr)
  | [] => none
  | c :: rest => if is_digit c then str_parse_uintmax_loop 0 c rest else none

/-- Dovecot `str_to_uintmax`: the whole string must have been read. -/
def str_to_uintmax (str : CStr) : Option Nat :=
  match str_parse_uintmax str with
  | some (n, []) => some n
  | _ => none

/-- Dovecot `str_to_uint`: `some v` stands for return 0 with `*num_r = v`,
`none` for return -1 with `*num_r` untouched. -/
def str_to_uint (str : CStr) : Option Nat :=
  match str_to_uintmax str with
  | none => none
  | some l => if l > UINT_MAX then none else some l

/-! ## Data model (fts-elastic-plugin.h) -/

/-- Modelled from the spec: the declaration of `struct fts_elastic_settings`
(fts-elastic-plugin.h) is not among the sources.  The fields are the ones
`fts_elastic_plugin_init_settings` names, which are the spec's Configuration:
service URL, raw-protocol-log directory, bulk flush threshold (an
`unsigned int`, written by `str_to_uint`), the two refresh flags and the
debug flag.  A `const char *` field is `none` when it is `NULL`. -/
structure fts_elastic_settings where
  url : Option CStr
  rawlog_dir : Option CStr
  bulk_size : Nat
  refresh_on_update : Bool
  refresh_by_fts : Bool
  debug : Bool
  deriving DecidableEq, Repr

/-- Modelled from the spec: the declaration of `struct fts_elastic_user`
(fts-elastic-plugin.h) is not among the sources.  It is the per-user module
context; the code names its field `set`, the user's Configuration. -/
structure fts_elastic_user where
  set : fts_elastic_settings
  deriving DecidableEq, Repr

/-- The part of Dovecot's `struct mail_user` the plugin reads and writes:
the plugin settings (name, value pairs) and the slot of
`fts_elastic_user_module` among the user's module contexts. -/
structure mail_user where
  plugin_envs : List (CStr × CStr)
  fts_elastic_user_module : Option fts_elastic_user
  deriving DecidableEq, Repr

/-- Dovecot `mail_user_plugin_getenv`: the value of the first setting of that
name, `NULL` when there is none. -/
def mail_user_plugin_getenv (user : mail_user) (name : CStr) : Option CStr :=
  match user.plugin_envs.find? (fun kv => strcmp kv.1 name = 0) with
  | some kv => some kv.2
  | none => none

/-- A zero-filled `struct fts_elastic_settings`. -/
def fts_elastic_settings_zero : fts_elastic_settings :=
  { url := none, rawlog_dir := none, bulk_size := 0,
    refresh_on_update := false, refresh_by_fts := false, debug := false }

/-- Allocation `p_new(user->pool, struct fts_elastic_user, 1)`: zero-filled. -/
def p_new_fts_elastic_user : fts_elastic_user :=
  { set := fts_elastic_settings_zero }

/-! ## fts_elastic_plugin_init_settings -/

/-- Body of the `for` loop of `fts_elastic_plugin_init_settings` on the
token `*tmp`: `(0, set)` to go on with the next token, `(-1, set)` for a
`return -1`, with the record as the body left it. -/
def init_settings_token (tmp : CStr) (set : fts_elastic_settings) :
    Int × fts_elastic_settings :=
  if strncmp tmp "url=".toList 4 = 0 then
    (0, { set with url := some (tmp.drop 4) })
  else if strcmp tmp "debug".toList = 0 then
    (0, { set with debug := true })
  else if strncmp tmp "rawlog_dir=".toList 11 = 0 then
    (0, { set with rawlog_dir := some (tmp.drop 11) })
  else if strncmp tmp "bulk_size=".toList 10 = 0 then
    match str_to_uint (tmp.drop 10) with
    | none => (-1, set)
    | some v =>
      if v = 0 then (-1, { set with bulk_size := v })
      else (0, { set with bulk_size := v })
  else if strncmp tmp "refresh=".toList 8 = 0 then
    if strcmp (tmp.drop 8) "never".toList = 0 then
      (0, { set with refresh_on_update := false, refresh_by_fts := false })
    else if strcmp (tmp.drop 8) "update".toList = 0 then
      (0, { set with refresh_on_update := true })
    else if strcmp (tmp.drop 8) "fts".toList = 0 then
      (0, { set with refresh_by_fts := true })
    else (-1, set)
  else (-1, set)

/-- The `for (; *tmp != NULL; tmp++)` loop of
`fts_elastic_plugin_init_settings`, and the `return 0` after it. -/
def init_settings_loop : List CStr → fts_elastic_settings → Int × fts_elastic_settings
  | [], set => (0, set)
  | tmp :: rest, set =>
    if (init_settings_token tmp set).1 = 0 then
      init_settings_loop rest (init_settings_token tmp set).2
    else init_settings_token tmp set

/-- Function `fts_elastic_plugin_init_settings(user, set, str)`: the return
code and the final contents of `*set`. -/
def fts_elastic_plugin_init_settings (user : Option mail_user)
    (set : Option fts_elastic_settings) (str : Option CStr) :
    Int × Option fts_elastic_settings :=
  match user, set with
  | some _, some set =>
    let str := match str with
      | none => []
      | some s => s
    let set := { set with bulk_size := 5 * 1024 * 1024,
                          refresh_by_fts := true,
                          refresh_on_update := false }
    let r := init_settings_loop (t_strsplit_spaces str " ".toList) set
    (r.1, some r.2)
  | _, _ => (-1, set)

/-! ## User hooks -/

/-- Function `fts_elastic_mail_user_create(user, env)`: the user afterwards. -/
def fts_elastic_mail_user_create (user : Option mail_user) (env : Option CStr) :
    Option mail_user :=
  match user, env with
  | some u, some e =>
    let fuser := p_new_fts_elastic_user
    let r := fts_elastic_plugin_init_settings (some u) (some fuser.set) (some e)
    if r.1 < 0 then some u
    else
      match r.2 with
      | some set => some { u with fts_elastic_user_module := some { fuser with set := set } }
      | none => some u
  | _, _ => user

/-- Function `fts_elastic_mail_user_created(user)`: the user afterwards. -/
def fts_elastic_mail_user_created (user : Option mail_user) : Option mail_user :=
  match user with
  | none => none
  | some u =>
    match mail_user_plugin_getenv u "fts_elastic".toList with
    | some env => fts_elastic_mail_user_create (some u) (some env)
    | none => some u

/-! ## Precache -/

/-- Modelled from the spec: the declaration of `struct fts_elastic_mail` is not
among the sources.  It is the per-mail module context; the code names its
field `virtual_mail`, the tag the spec describes as "belongs to a virtual
view". -/
structure fts_elastic_mail where
  virtual_mail : Bool
  deriving DecidableEq, Repr

/-- The part of Dovecot's `struct mail` the precache hook reads: the uid (a
`uint32_t`) and the plugin's module context `FTS_MAIL_CONTEXT(mail)`. -/
structure mail where
  uid : Nat
  fmail : fts_elastic_mail
  deriving DecidableEq, Repr

/-- Modelled from the spec: the declaration of
`struct fts_elastic_transaction_context` is not among the sources.  It is the
plugin's per-transaction context; the code names its field
`highest_virtual_uid`, the spec's "highest observed UID" watermark.  Whatever
else the record holds is the field `other`, of a type `τ` left open. -/
structure fts_elastic_transaction_context (τ : Type) where
  highest_virtual_uid : Nat
  other : τ

/-- Function `fts_elastic_mail_precache(_mail)`.  `super_precache` is the
previous `precache` of the vfuncs chain, acting on the host state `σ`; the
plugin's transaction context `ft` is the plugin's own slot. -/
def fts_elastic_mail_precache {σ τ : Type} (super_precache : mail → σ → σ)
    (_mail : mail) (host : σ) (ft : fts_elastic_transaction_context τ) :
    σ × fts_elastic_transaction_context τ :=
  let host := super_precache _mail host
  if _mail.fmail.virtual_mail then
    if ft.highest_virtual_uid < _mail.uid then
      (host, { ft with highest_virtual_uid := _mail.uid })
    else (host, ft)
  else (host, ft)

/-! ## Specification-side definitions -/

/-- The effect the specification gives a token on the pair
(refresh_on_update, refresh_by_fts): `refresh=never` clears both,
`refresh=update` sets the first, `refresh=fts` sets the second. -/
def refresh_apply (p : Bool × Bool) (tok : CStr) : Bool × Bool :=
  if tok = "refresh=never".toList then (false, false)
  else if tok = "refresh=update".toList then (true, p.2)
  else if tok = "refresh=fts".toList then (p.1, true)
  else p

/-- The `refresh=` tokens of a settings string, in order. -/
def refresh_tokens (str : CStr) : List CStr :=
  (t_strsplit_spaces str " ".toList).filter (fun t => "refresh=".toList.isPrefixOf t)

/-- The refresh pair the specification assigns to a settings string: its
`refresh=` tokens applied left to right to (false, true). -/
def refresh_spec (str : CStr) : Bool × Bool :=
  (refresh_tokens str).foldl refresh_apply (false, true)

/-- The `url=` tokens of a settings string, in order. -/
def url_tokens (str : CStr) : List CStr :=
  (t_strsplit_spaces str " ".toList).filter (fun t => "url=".toList.isPrefixOf t)

/-! ## Facts about the library routines -/

theorem strncmp_eq_zero_iff (a b : CStr) (n : Nat) :
    strncmp a b n = 0 ↔ a.take n = b.take n := by
  induction n generalizing a b with
  | zero => simp [strncmp]
  | succ n ih =>
    cases a with
    | nil => cases b <;> simp [strncmp]
    | cons x xs =>
      cases b with
      | nil => simp [strncmp]
      | cons y ys =>
        by_cases hxy : x = y
        · simp [strncmp, hxy, ih]
        · by_cases hlt : x.toNat < y.toNat <;> simp [strncmp, hxy, hlt]

theorem strcmp_eq_zero_iff (a b : CStr) : strcmp a b = 0 ↔ a = b := by
  induction a generalizing b with
  | nil => cases b <;> simp [strcmp]
  | cons x xs ih =>
    cases b with
    | nil => simp [strcmp]
    | cons y ys =>
      by_cases hxy : x = y
      · simp [strcmp, hxy, ih]
      · by_cases hlt : x.toNat < y.toNat <;> simp [strcmp, hxy, hlt]

/-- Comparing the first `p.length` characters with `p` tests for the prefix `p`. -/
theorem strncmp_prefix_iff (t p : CStr) :
    strncmp t p p.length = 0 ↔ p <+: t := by
  rw [strncmp_eq_zero_iff, List.take_length, List.prefix_iff_eq_take]
  exact eq_comm

/-- The loop body returns 0 or -1. -/
theorem init_settings_token_code (tmp : CStr) (set : fts_elastic_settings) :
    (init_settings_token tmp set).1 = 0 ∨ (init_settings_token tmp set).1 = -1 := by
  unfold init_settings_token
  split_ifs <;> first | simp | (split <;> [simp; (split_ifs <;> simp)])

/-- The loop returns 0 or -1. -/
theorem init_settings_loop_code (ts : List CStr) (set : fts_elastic_settings) :
    (init_settings_loop ts set).1 = 0 ∨ (init_settings_loop ts set).1 = -1 := by
  induction ts generalizing set with
  | nil => simp [init_settings_loop]
  | cons tmp rest ih =>
    unfold init_settings_loop
    split_ifs with h
    · exact ih _
    · exact init_settings_token_code tmp set

/-- A token that is neither `debug` nor starts with a known key is rejected. -/
theorem init_settings_token_unrecognized (t : CStr) (set : fts_elastic_settings)
    (hdebug : t ≠ "debug".toList)
    (hurl : ¬ "url=".toList <+: t)
    (hrawlog : ¬ "rawlog_dir=".toList <+: t)
    (hbulk : ¬ "bulk_size=".toList <+: t)
    (hrefresh : ¬ "refresh=".toList <+: t) :
    init_settings_token t set = (-1, set) := by
  have h1 : ¬ strncmp t "url=".toList 4 = 0 := fun h =>
    hurl ((strncmp_prefix_iff t "url=".toList).1 h)
  have h2 : ¬ strcmp t "debug".toList = 0 := fun h =>
    hdebug ((strcmp_eq_zero_iff _ _).1 h)
  have h3 : ¬ strncmp t "rawlog_dir=".toList 11 = 0 := fun h =>
    hrawlog ((strncmp_prefix_iff t "rawlog_dir=".toList).1 h)
  have h4 : ¬ strncmp t "bulk_size=".toList 10 = 0 := fun h =>
    hbulk ((strncmp_prefix_iff t "bulk_size=".toList).1 h)
  have h5 : ¬ strncmp t "refresh=".toList 8 = 0 := fun h =>
    hrefresh ((strncmp_prefix_iff t "refresh=".toList).1 h)
  simp only [init_settings_token, h1, h2, h3, h4, h5, if_false]

/-- The loop fails as soon as the token list holds a token the body rejects
in every state. -/
theorem init_settings_loop_fails_of_mem (ts : List CStr) (t : CStr)
    (hmem : t ∈ ts) (hrej : ∀ set, (init_settings_token t set).1 = -1)
    (set : fts_elastic_settings) :
    (init_settings_loop ts set).1 = -1 := by
  induction ts generalizing set with
  | nil => cases hmem
  | cons tmp rest ih =>
    unfold init_settings_loop
    split_ifs with h
    · rcases List.mem_cons.1 hmem with rfl | hin
      · rw [hrej set] at h; exact absurd h (by decide)
      · exact ih hin _
    · rcases init_settings_token_code tmp set with h0 | h1
      · exact absurd h0 h
      · exact h1

/-- Separators only: no token. -/
theorem split_str_walk_all_separators (separators str : CStr)
    (h : ∀ c ∈ str, strchr separators c = true) :
    split_str_walk separators str [] = [] := by
  induction str with
  | nil => simp [split_str_walk]
  | cons c rest ih =>
    have hc : strchr separators c = true := h c (List.mem_cons_self _ _)
    have hrest : ∀ d ∈ rest, strchr separators d = true :=
      fun d hd => h d (List.mem_cons_of_mem _ hd)
    simp [split_str_walk, hc, ih hrest]

/-- A successful loop leaves a positive `bulk_size` when it started from one. -/
theorem init_settings_loop_bulk_size_pos (ts : List CStr) (set c : fts_elastic_settings)
    (hpos : 0 < set.bulk_size) (h : init_settings_loop ts set = (0, c)) :
    0 < c.bulk_size := by
  induction ts generalizing set with
  | nil =>
    simp only [init_settings_loop, Prod.mk.injEq, true_and] at h
    exact h ▸ hpos
  | cons tmp rest ih =>
    unfold init_settings_loop at h
    split_ifs at h with h0
    · refine ih _ ?_ h
      revert h0
      unfold init_settings_token
      split_ifs
      · intro _; exact hpos
      · intro _; exact hpos
      · intro _; exact hpos
      · split
        · intro h0; simp at h0
        · split_ifs with hv
          · intro h0; simp at h0
          · intro _; exact Nat.pos_of_ne_zero hv
      · intro _; exact hpos
      · intro _; exact hpos
      · intro _; exact hpos
      · intro h0; simp at h0
      · intro h0; simp at h0
    · rw [h] at h0; exact absurd rfl h0

/-- Comparing the first `p.length` characters with `p`, as a boolean prefix test. -/
theorem strncmp_isPrefixOf (t p : CStr) :
    strncmp t p p.length = 0 ↔ p.isPrefixOf t = true := by
  rw [strncmp_prefix_iff, List.isPrefixOf_iff_prefix]

/-- Equal on the first `n` characters, hence on the first `k ≤ n`. -/
theorem take_of_strncmp (t p : CStr) (n k : Nat) (hk : k ≤ n)
    (h : strncmp t p n = 0) : t.take k = p.take k := by
  have h1 := (strncmp_eq_zero_iff t p n).1 h
  have h2 := congrArg (List.take k) h1
  simpa [List.take_take, Nat.min_eq_left hk] using h2

/-- A token with the key `refresh=` and the value `v`. -/
theorem token_of_refresh (t v : CStr) (hp : strncmp t "refresh=".toList 8 = 0)
    (hv : strcmp (t.drop 8) v = 0) : t = "refresh=".toList ++ v := by
  have h1 := (strncmp_eq_zero_iff _ _ _).1 hp
  have h2 := (strcmp_eq_zero_iff _ _).1 hv
  calc t = t.take 8 ++ t.drop 8 := (List.take_append_drop 8 t).symm
    _ = "refresh=".toList ++ v := by rw [h1, h2]; rfl

/-- A token whose first two characters are not `re` is no `refresh=` token. -/
theorem not_refresh_of_take (t : CStr) (h : t.take 2 ≠ "re".toList) :
    "refresh=".toList.isPrefixOf t = false := by
  rw [Bool.eq_false_iff]
  intro hp
  exact h (take_of_strncmp t "refresh=".toList 8 2 (by decide)
    ((strncmp_isPrefixOf t "refresh=".toList).2 hp))

/-- What an accepted token does to the refresh pair. -/
theorem init_settings_token_refresh (t : CStr) (a a1 : fts_elastic_settings)
    (h : init_settings_token t a = (0, a1)) :
    (a1.refresh_on_update, a1.refresh_by_fts)
      = if "refresh=".toList.isPrefixOf t
        then refresh_apply (a.refresh_on_update, a.refresh_by_fts) t
        else (a.refresh_on_update, a.refresh_by_fts) := by
  unfold init_settings_token at h
  split_ifs at h with h1 h2 h3 h4 h5 h6 h7 h8
  · have ht := take_of_strncmp t _ 4 2 (by decide) h1
    rw [not_refresh_of_take t (by rw [ht]; decide)]
    simp only [Prod.mk.injEq, true_and] at h
    subst h
    simp
  · have ht := (strcmp_eq_zero_iff _ _).1 h2
    rw [not_refresh_of_take t (by rw [ht]; decide)]
    simp only [Prod.mk.injEq, true_and] at h
    subst h
    simp
  · have ht := take_of_strncmp t _ 11 2 (by decide) h3
    rw [not_refresh_of_take t (by rw [ht]; decide)]
    simp only [Prod.mk.injEq, true_and] at h
    subst h
    simp
  · have ht := take_of_strncmp t _ 10 2 (by decide) h4
    rw [not_refresh_of_take t (by rw [ht]; decide)]
    split at h
    · simp at h
    · split_ifs at h
      · simp at h
      · simp only [Prod.mk.injEq, true_and] at h
        subst h
        simp
  · have ht := token_of_refresh t _ h5 h6
    simp only [Prod.mk.injEq, true_and] at h
    subst h
    subst ht
    obtain ⟨url, rawlog, bulk, on_update, by_fts, dbg⟩ := a
    dsimp only [refresh_apply]
    cases on_update <;> cases by_fts <;> decide
  · have ht := token_of_refresh t _ h5 h7
    simp only [Prod.mk.injEq, true_and] at h
    subst h
    subst ht
    obtain ⟨url, rawlog, bulk, on_update, by_fts, dbg⟩ := a
    dsimp only [refresh_apply]
    cases on_update <;> cases by_fts <;> decide
  · have ht := token_of_refresh t _ h5 h8
    simp only [Prod.mk.injEq, true_and] at h
    subst h
    subst ht
    obtain ⟨url, rawlog, bulk, on_update, by_fts, dbg⟩ := a
    dsimp only [refresh_apply]
    cases on_update <;> cases by_fts <;> decide
  · simp at h
  · simp at h

/-- The refresh pair after a successful loop: the `refresh=` tokens applied in
order to the pair the loop started from. -/
theorem init_settings_loop_refresh (ts : List CStr) (a c : fts_elastic_settings)
    (h : init_settings_loop ts a = (0, c)) :
    (c.refresh_on_update, c.refresh_by_fts)
      = (ts.filter (fun t => "refresh=".toList.isPrefixOf t)).foldl refresh_apply
          (a.refresh_on_update, a.refresh_by_fts) := by
  induction ts generalizing a with
  | nil =>
    simp only [init_settings_loop, Prod.mk.injEq, true_and] at h
    subst h
    simp
  | cons t rest ih =>
    unfold init_settings_loop at h
    split_ifs at h with h0
    · have hstep : init_settings_token t a = (0, (init_settings_token t a).2) :=
        Prod.ext h0 rfl
      have htok := init_settings_token_refresh t a _ hstep
      rw [ih _ h, htok]
      by_cases hp : "refresh=".toList.isPrefixOf t = true
      · simp only [List.filter_cons, hp, if_true, List.foldl_cons]
      · simp only [List.filter_cons, hp, Bool.false_eq_true, if_false]
    · rw [h] at h0
      exact absurd rfl h0

/-- Replaying an accepted token on a record that agrees with the first one on
bulk_size and the refresh flags, and whose url, rawlog_dir and debug are each
that of the first record or that of a fixed record `b`: the token is accepted
again and the same relation holds afterwards. -/
theorem init_settings_token_replay (t : CStr) (a a1 a' b : fts_elastic_settings)
    (h : init_settings_token t a = (0, a1))
    (hbulk : a'.bulk_size = a.bulk_size)
    (hou : a'.refresh_on_update = a.refresh_on_update)
    (hbf : a'.refresh_by_fts = a.refresh_by_fts)
    (hurl : a'.url = a.url ∨ a'.url = b.url)
    (hrl : a'.rawlog_dir = a.rawlog_dir ∨ a'.rawlog_dir = b.rawlog_dir)
    (hdbg : a'.debug = a.debug ∨ a'.debug = b.debug) :
    (init_settings_token t a').1 = 0 ∧
    (init_settings_token t a').2.bulk_size = a1.bulk_size ∧
    (init_settings_token t a').2.refresh_on_update = a1.refresh_on_update ∧
    (init_settings_token t a').2.refresh_by_fts = a1.refresh_by_fts ∧
    ((init_settings_token t a').2.url = a1.url ∨ (init_settings_token t a').2.url = b.url) ∧
    ((init_settings_token t a').2.rawlog_dir = a1.rawlog_dir ∨
      (init_settings_token t a').2.rawlog_dir = b.rawlog_dir) ∧
    ((init_settings_token t a').2.debug = a1.debug ∨
      (init_settings_token t a').2.debug = b.debug) := by
  unfold init_settings_token at h ⊢
  split_ifs at h ⊢ with h1 h2 h3 h4 h5 h6 h7 h8
  · simp only [Prod.mk.injEq, true_and] at h
    subst h
    exact ⟨rfl, hbulk, hou, hbf, Or.inl rfl, hrl, hdbg⟩
  · simp only [Prod.mk.injEq, true_and] at h
    subst h
    exact ⟨rfl, hbulk, hou, hbf, hurl, hrl, Or.inl rfl⟩
  · simp only [Prod.mk.injEq, true_and] at h
    subst h
    exact ⟨rfl, hbulk, hou, hbf, hurl, Or.inl rfl, hdbg⟩
  · cases hv : str_to_uint (List.drop 10 t) with
    | none => simp [hv] at h
    | some v =>
      simp only [hv] at h ⊢
      split_ifs at h ⊢ with hz
      · simp at h
      · simp only [Prod.mk.injEq, true_and] at h
        subst h
        exact ⟨rfl, rfl, hou, hbf, hurl, hrl, hdbg⟩
  · simp only [Prod.mk.injEq, true_and] at h
    subst h
    exact ⟨rfl, hbulk, rfl, rfl, hurl, hrl, hdbg⟩
  · simp only [Prod.mk.injEq, true_and] at h
    subst h
    exact ⟨rfl, hbulk, rfl, hbf, hurl, hrl, hdbg⟩
  · simp only [Prod.mk.injEq, true_and] at h
    subst h
    exact ⟨rfl, hbulk, hou, rfl, hurl, hrl, hdbg⟩
  · simp at h
  · simp at h

/-- Replaying a successful loop from a record related to the first one as in
`init_settings_token_replay`, with `b` the record the loop produced: the loop
succeeds again and produces `b`. -/
theorem init_settings_loop_replay (ts : List CStr) (a a' b : fts_elastic_settings)
    (h : init_settings_loop ts a = (0, b))
    (hbulk : a'.bulk_size = a.bulk_size)
    (hou : a'.refresh_on_update = a.refresh_on_update)
    (hbf : a'.refresh_by_fts = a.refresh_by_fts)
    (hurl : a'.url = a.url ∨ a'.url = b.url)
    (hrl : a'.rawlog_dir = a.rawlog_dir ∨ a'.rawlog_dir = b.rawlog_dir)
    (hdbg : a'.debug = a.debug ∨ a'.debug = b.debug) :
    init_settings_loop ts a' = (0, b) := by
  induction ts generalizing a a' with
  | nil =>
    simp only [init_settings_loop, Prod.mk.injEq, true_and] at h ⊢
    subst h
    obtain ⟨u1, r1, b1, o1, f1, d1⟩ := a
    obtain ⟨u2, r2, b2, o2, f2, d2⟩ := a'
    simp only at hbulk hou hbf hurl hrl hdbg
    simp only [or_self] at hurl hrl hdbg
    subst hbulk hou hbf hurl hrl hdbg
    rfl
  | cons t rest ih =>
    unfold init_settings_loop at h ⊢
    split_ifs at h with h0
    · have hstep : init_settings_token t a = (0, (init_settings_token t a).2) :=
        Prod.ext h0 rfl
      obtain ⟨r0, r1, r2, r3, r4, r5, r6⟩ :=
        init_settings_token_replay t a _ a' b hstep hbulk hou hbf hurl hrl hdbg
      rw [if_pos r0]
      exact ih _ _ h r1 r2 r3 r4 r5 r6
    · rw [h] at h0
      exact absurd rfl h0

/-- What an accepted token does to the url. -/
theorem init_settings_token_url (t : CStr) (a a1 : fts_elastic_settings)
    (h : init_settings_token t a = (0, a1)) :
    a1.url = if "url=".toList.isPrefixOf t then some (t.drop 4) else a.url := by
  unfold init_settings_token at h
  split_ifs at h with h1 h2 h3 h4 h5 h6 h7 h8
  · rw [if_pos ((strncmp_isPrefixOf t "url=".toList).1 h1)]
    simp only [Prod.mk.injEq, true_and] at h
    subst h
    rfl
  all_goals
    rw [if_neg (fun hp => h1 ((strncmp_isPrefixOf t "url=".toList).2 hp))]
  · simp only [Prod.mk.injEq, true_and] at h
    subst h
    rfl
  · simp only [Prod.mk.injEq, true_and] at h
    subst h
    rfl
  · split at h
    · simp at h
    · split_ifs at h
      · simp at h
      · simp only [Prod.mk.injEq, true_and] at h
        subst h
        rfl
  · simp only [Prod.mk.injEq, true_and] at h
    subst h
    rfl
  · simp only [Prod.mk.injEq, true_and] at h
    subst h
    rfl
  · simp only [Prod.mk.injEq, true_and] at h
    subst h
    rfl
  · simp at h
  · simp at h

/-- The url after a successful loop: the text after `url=` of the last `url=`
token, and the url the loop started from when there is no such token. -/
theorem init_settings_loop_url (ts : List CStr) (a c : fts_elastic_settings)
    (h : init_settings_loop ts a = (0, c)) :
    c.url = (ts.filter (fun t => "url=".toList.isPrefixOf t)).foldl
      (fun _ t => some (t.drop 4)) a.url := by
  induction ts generalizing a with
  | nil =>
    simp only [init_settings_loop, Prod.mk.injEq, true_and] at h
    subst h
    simp
  | cons t rest ih =>
    unfold init_settings_loop at h
    split_ifs at h with h0
    · have hstep : init_settings_token t a = (0, (init_settings_token t a).2) :=
        Prod.ext h0 rfl
      have htok := init_settings_token_url t a _ hstep
      rw [ih _ h, htok]
      by_cases hp : "url=".toList.isPrefixOf t = true
      · simp only [List.filter_cons, hp, if_true, List.foldl_cons]
      · simp only [List.filter_cons, hp, Bool.false_eq_true, if_false]
    · rw [h] at h0
      exact absurd rfl h0

/-- Folding "keep the last" over a list: the last element, or the start value. -/
theorem foldl_keep_last {α β : Type} (f : α → β) (l : List α) (x : Option β) :
    l.foldl (fun _ t => some (f t)) x
      = match l.getLast? with
        | some t => some (f t)
        | none => x := by
  induction l generalizing x with
  | nil => rfl
  | cons t rest ih =>
    rw [List.foldl_cons, ih]
    cases rest with
    | nil => rfl
    | cons t2 rest2 =>
      rw [List.getLast?_cons_cons]
      cases hl : (t2 :: rest2).getLast? with
      | none => simp at hl
      | some w => rfl

/-- The user-created hook after a successful resolution: the produced record
is attached. -/
theorem user_created_of_success (u : mail_user) (s : CStr) (c : fts_elastic_settings)
    (hs : mail_user_plugin_getenv u "fts_elastic".toList = some s)
    (hc : fts_elastic_plugin_init_settings (some u) (some p_new_fts_elastic_user.set)
      (some s) = (0, some c)) :
    fts_elastic_mail_user_created (some u)
      = some { u with fts_elastic_user_module := some { set := c } } := by
  simp only [fts_elastic_mail_user_created, hs, fts_elastic_mail_user_create, hc]
  simp [p_new_fts_elastic_user]

/-! ### The tokens of `t_strsplit_spaces` -/

/-- No separator in the string: the whole string (after what was already
read) is the one token. -/
theorem split_str_walk_no_separator (separators str cur : CStr)
    (h : ∀ c ∈ str, strchr separators c = false) :
    split_str_walk separators str cur
      = if (cur.reverse ++ str).isEmpty then [] else [cur.reverse ++ str] := by
  induction str generalizing cur with
  | nil => simp [split_str_walk]
  | cons c rest ih =>
    have hc : strchr separators c = false := h c (List.mem_cons_self _ _)
    have hrest : ∀ d ∈ rest, strchr separators d = false :=
      fun d hd => h d (List.mem_cons_of_mem _ hd)
    simp [split_str_walk, hc, ih _ hrest]

/-- A separator-free run followed by a separator: the run (after what was
already read) is the next token, and the walk goes on after the separator. -/
theorem split_str_walk_token (separators t cur rest : CStr) (s : Char)
    (ht : ∀ c ∈ t, strchr separators c = false) (hs : strchr separators s = true)
    (hne : cur.reverse ++ t ≠ []) :
    split_str_walk separators (t ++ s :: rest) cur
      = (cur.reverse ++ t) :: split_str_walk separators rest [] := by
  induction t generalizing cur with
  | nil =>
    have hcur : cur ≠ [] := by simpa using hne
    simp [split_str_walk, hs, hcur]
  | cons c t ih =>
    have hc : strchr separators c = false := ht c (List.mem_cons_self _ _)
    have ht' : ∀ d ∈ t, strchr separators d = false :=
      fun d hd => ht d (List.mem_cons_of_mem _ hd)
    simp [split_str_walk, hc, ih (c :: cur) ht' (by simp)]

/-- The tokens of `t_strsplit_spaces`, in order: nothing for the empty string, a
leading separator is skipped, a separator-free run up to a separator is the
first token, and a separator-free run up to the end is the last one. -/
theorem t_strsplit_spaces_spec (separators : CStr) :
    t_strsplit_spaces [] separators = [] ∧
    (∀ (s : Char) (rest : CStr), strchr separators s = true →
      t_strsplit_spaces (s :: rest) separators = t_strsplit_spaces rest separators) ∧
    (∀ (t : CStr) (s : Char) (rest : CStr), t ≠ [] →
      (∀ c ∈ t, strchr separators c = false) → strchr separators s = true →
      t_strsplit_spaces (t ++ s :: rest) separators
        = t :: t_strsplit_spaces rest separators) ∧
    (∀ t : CStr, t ≠ [] → (∀ c ∈ t, strchr separators c = false) →
      t_strsplit_spaces t separators = [t]) := by
  refine ⟨by simp [t_strsplit_spaces, split_str_walk], ?_, ?_, ?_⟩
  · intro s rest hs
    simp [t_strsplit_spaces, split_str_walk, hs]
  · intro t s rest hne ht hs
    unfold t_strsplit_spaces
    rw [split_str_walk_token separators t [] rest s ht hs (by simpa using hne)]
    rfl
  · intro t hne ht
    unfold t_strsplit_spaces
    rw [split_str_walk_no_separator separators t [] ht]
    simp [hne]

/-! ### Decimal numbers: `str_to_uint` against `Nat.toDigits` -/

/-- The value read so far never decreases. -/
theorem foldl_digits_ge (ds : CStr) (acc : Nat) :
    acc ≤ ds.foldl (fun a c => a * 10 + (c.toNat - '0'.toNat)) acc := by
  induction ds generalizing acc with
  | nil => exact Nat.le_refl _
  | cons c rest ih =>
    rw [List.foldl_cons]
    exact Nat.le_trans (by omega) (ih _)

/-- On a run of digits whose value fits `uintmax_t`, the parsing loop reads the
whole run and returns its value. -/
theorem str_parse_uintmax_loop_digits (rest : CStr) (acc : Nat) (c : Char)
    (hrest : ∀ d ∈ rest, is_digit d = true)
    (hfit : (c :: rest).foldl (fun a c => a * 10 + (c.toNat - '0'.toNat)) acc
      ≤ UINTMAX_MAX) :
    str_parse_uintmax_loop acc c rest
      = some ((c :: rest).foldl (fun a c => a * 10 + (c.toNat - '0'.toNat)) acc, []) := by
  induction rest generalizing acc c with
  | nil =>
    unfold str_parse_uintmax_loop
    simp only [List.foldl_cons, List.foldl_nil] at hfit ⊢
    rw [if_neg]
    unfold UINTMAX_MAX at hfit ⊢
    omega
  | cons d rest ih =>
    have hd : is_digit d = true := hrest d (List.mem_cons_self _ _)
    have hrest' : ∀ e ∈ rest, is_digit e = true :=
      fun e he => hrest e (List.mem_cons_of_mem _ he)
    rw [List.foldl_cons] at hfit ⊢
    have hge := foldl_digits_ge (d :: rest) (acc * 10 + (c.toNat - '0'.toNat))
    unfold str_parse_uintmax_loop
    dsimp only
    rw [if_neg, if_pos hd]
    · exact ih _ d hrest' hfit
    · unfold UINTMAX_MAX at hfit ⊢
      omega

/-- When the parsing loop reads the whole string, the string after the first
character is all digits. -/
theorem str_parse_uintmax_loop_all_digits (rest : CStr) (acc : Nat) (c : Char) (n : Nat)
    (h : str_parse_uintmax_loop acc c rest = some (n, [])) :
    ∀ d ∈ rest, is_digit d = true := by
  induction rest generalizing acc c with
  | nil => intro d hd; cases hd
  | cons e rest ih =>
    unfold str_parse_uintmax_loop at h
    dsimp only at h
    split_ifs at h with hov he
    · intro d hd
      rcases List.mem_cons.1 hd with rfl | hd'
      · exact he
      · exact ih _ _ h d hd'
    · simp at h

/-- Routine `str_to_uint` accepts only strings of digits. -/
theorem str_to_uint_all_digits (v : CStr) (n : Nat) (h : str_to_uint v = some n) :
    v ≠ [] ∧ ∀ c ∈ v, is_digit c = true := by
  unfold str_to_uint at h
  cases hm : str_to_uintmax v with
  | none => simp [hm] at h
  | some l =>
    unfold str_to_uintmax at hm
    cases v with
    | nil => simp [str_parse_uintmax] at hm
    | cons c rest =>
      refine ⟨by simp, ?_⟩
      unfold str_parse_uintmax at hm
      dsimp only at hm
      split_ifs at hm with hc
      · cases hp : str_parse_uintmax_loop 0 c rest with
        | none => simp [hp] at hm
        | some r =>
          obtain ⟨m, tl⟩ := r
          cases tl with
          | nil =>
            intro d hd
            rcases List.mem_cons.1 hd with rfl | hd'
            · exact hc
            · exact str_parse_uintmax_loop_all_digits rest 0 c m hp d hd'
          | cons x xs => simp [hp] at hm

/-- The decimal digit characters are digits, with the expected values. -/
theorem digitChar_digit (k : Nat) (hk : k < 10) :
    is_digit (Nat.digitChar k) = true ∧ (Nat.digitChar k).toNat - '0'.toNat = k := by
  have : ∀ j, j < 10 →
      is_digit (Nat.digitChar j) = true ∧ (Nat.digitChar j).toNat - '0'.toNat = j := by
    decide
  exact this k hk

/-- The digits `Nat.toDigitsCore` puts in front of its accumulator: a
non-empty run of digit characters whose value is `n`. -/
theorem toDigitsCore_spec (fuel : Nat) : ∀ (n : Nat) (ds : List Char), n < fuel →
    ∃ pre : List Char, Nat.toDigitsCore 10 fuel n ds = pre ++ ds ∧ pre ≠ [] ∧
      (∀ c ∈ pre, is_digit c = true) ∧
      ∀ acc, pre.foldl (fun a c => a * 10 + (c.toNat - '0'.toNat)) acc
        = acc * 10 ^ pre.length + n := by
  induction fuel with
  | zero => intro n ds h; exact absurd h (Nat.not_lt_zero _)
  | succ fuel ih =>
    intro n ds hn
    have hmod := digitChar_digit (n % 10) (Nat.mod_lt _ (by decide))
    unfold Nat.toDigitsCore
    by_cases h0 : n / 10 = 0
    · simp only [h0, if_true]
      refine ⟨[Nat.digitChar (n % 10)], rfl, by simp, ?_, ?_⟩
      · intro c hc
        rw [List.mem_singleton.1 hc]
        exact hmod.1
      · intro acc
        simp only [List.foldl_cons, List.foldl_nil, List.length_singleton, pow_one]
        rw [hmod.2]
        omega
    · simp only [h0, if_false]
      obtain ⟨pre, hpre, hne, hdig, hval⟩ :=
        ih (n / 10) (Nat.digitChar (n % 10) :: ds) (by omega)
      refine ⟨pre ++ [Nat.digitChar (n % 10)], by rw [hpre]; simp, by simp, ?_, ?_⟩
      · intro c hc
        rcases List.mem_append.1 hc with h1 | h1
        · exact hdig c h1
        · rw [List.mem_singleton.1 h1]
          exact hmod.1
      · intro acc
        rw [List.foldl_append, hval acc]
        simp only [List.foldl_cons, List.foldl_nil, List.length_append,
          List.length_singleton]
        rw [hmod.2, pow_succ]
        have := Nat.div_add_mod n 10
        nlinarith [this]

/-- Reading back the decimal rendering of a number that fits `unsigned int`. -/
theorem str_to_uint_toDigits (n : Nat) (hn : n ≤ UINT_MAX) :
    str_to_uint (Nat.toDigits 10 n) = some n := by
  obtain ⟨pre, hpre, hne, hdig, hval⟩ := toDigitsCore_spec (n + 1) n [] (Nat.lt_succ_self n)
  have htd : Nat.toDigits 10 n = pre := by
    unfold Nat.toDigits
    rw [hpre, List.append_nil]
  rw [htd]
  cases pre with
  | nil => exact absurd rfl hne
  | cons c rest =>
    have hc : is_digit c = true := hdig c (List.mem_cons_self _ _)
    have hrest : ∀ d ∈ rest, is_digit d = true :=
      fun d hd => hdig d (List.mem_cons_of_mem _ hd)
    have hv := hval 0
    rw [Nat.zero_mul, Nat.zero_add] at hv
    have hloop := str_parse_uintmax_loop_digits rest 0 c hrest (by
      rw [hv]
      unfold UINT_MAX at hn
      unfold UINTMAX_MAX
      omega)
    rw [hv] at hloop
    have hgt : ¬ n > UINT_MAX := Nat.not_lt.2 hn
    simp only [str_to_uint, str_to_uintmax, str_parse_uintmax, hc, if_true, hloop, hgt,
      if_false]

/-- The loop body on a token `bulk_size=<v>`. -/
theorem init_settings_token_bulk_size (v : CStr) (set : fts_elastic_settings) :
    init_settings_token ("bulk_size=".toList ++ v) set
      = match str_to_uint v with
        | none => (-1, set)
        | some n =>
          if n = 0 then (-1, { set with bulk_size := n })
          else (0, { set with bulk_size := n }) := by
  have h1 : strncmp ("bulk_size=".toList ++ v) "url=".toList 4 = -1 := rfl
  have h2 : strcmp ("bulk_size=".toList ++ v) "debug".toList = -1 := rfl
  have h3 : strncmp ("bulk_size=".toList ++ v) "rawlog_dir=".toList 11 = -1 := rfl
  have h4 : strncmp ("bulk_size=".toList ++ v) "bulk_size=".toList 10 = 0 :=
    (strncmp_prefix_iff _ "bulk_size=".toList).2 (List.prefix_append _ _)
  have h5 : List.drop 10 ("bulk_size=".toList ++ v) = v := rfl
  unfold init_settings_token
  rw [h1, h2, h3, h4, h5]
  rfl

/-- Resolving the single token `bulk_size=<v>` (no space in `<v>`). -/
theorem init_settings_single_bulk_size (user : mail_user) (set : fts_elastic_settings)
    (v : CStr) (hsp : ' ' ∉ v) :
    fts_elastic_plugin_init_settings (some user) (some set)
        (some ("bulk_size=".toList ++ v))
      = match str_to_uint v with
        | none => (-1, some { set with bulk_size := 5242880, refresh_by_fts := true,
                                       refresh_on_update := false })
        | some n =>
          if n = 0 then (-1, some { set with bulk_size := 0, refresh_by_fts := true,
                                             refresh_on_update := false })
          else (0, some { set with bulk_size := n, refresh_by_fts := true,
                                   refresh_on_update := false }) := by
  have hsplit : t_strsplit_spaces ("bulk_size=".toList ++ v) " ".toList
      = ["bulk_size=".toList ++ v] := by
    unfold t_strsplit_spaces
    rw [split_str_walk_no_separator]
    · rfl
    · intro c hc
      rcases List.mem_append.1 hc with h | h
      · have hall : ∀ d ∈ "bulk_size=".toList, strchr " ".toList d = false := by decide
        exact hall c h
      · have hne : c ≠ ' ' := fun hcs => hsp (hcs ▸ h)
        simp [strchr, String.toList, hne]
  simp only [fts_elastic_plugin_init_settings, hsplit, init_settings_loop,
    init_settings_token_bulk_size]
  cases hv : str_to_uint v with
  | none => simp
  | some n =>
    by_cases hz : n = 0
    · subst hz
      simp
    · simp [hz, init_settings_loop]

/-! ## The claims -/

/-- C1: resolving `url=http://localhost:9200 bulk_size=100 refresh=never` into
a freshly zeroed settings record returns 0 and yields that URL, bulk_size 100,
both refresh flags false and debug false. -/
theorem C1_concrete_scenario (user : mail_user) :
    fts_elastic_plugin_init_settings (some user) (some p_new_fts_elastic_user.set)
        (some "url=http://localhost:9200 bulk_size=100 refresh=never".toList)
      = (0, some { url := some "http://localhost:9200".toList, rawlog_dir := none,
                   bulk_size := 100, refresh_on_update := false,
                   refresh_by_fts := false, debug := false }) := by
  simp only [fts_elastic_plugin_init_settings]
  decide

/-- C2: a settings string one of whose space-separated tokens is not `debug`
and does not begin with `url=`, `rawlog_dir=`, `bulk_size=` or `refresh=` makes
`fts_elastic_plugin_init_settings` return -1, whatever the other tokens, the
user and the record are. -/
theorem C2_unrecognized_token_fails (user : Option mail_user)
    (set : Option fts_elastic_settings) (str t : CStr)
    (hmem : t ∈ t_strsplit_spaces str " ".toList)
    (hdebug : t ≠ "debug".toList)
    (hurl : ¬ "url=".toList <+: t)
    (hrawlog : ¬ "rawlog_dir=".toList <+: t)
    (hbulk : ¬ "bulk_size=".toList <+: t)
    (hrefresh : ¬ "refresh=".toList <+: t) :
    (fts_elastic_plugin_init_settings user set (some str)).1 = -1 := by
  cases user with
  | none => simp [fts_elastic_plugin_init_settings]
  | some u =>
    cases set with
    | none => simp [fts_elastic_plugin_init_settings]
    | some set0 =>
      simp only [fts_elastic_plugin_init_settings]
      exact init_settings_loop_fails_of_mem _ t hmem
        (fun s => by
          rw [init_settings_token_unrecognized t s hdebug hurl hrawlog hbulk hrefresh]) _

/-- C2 at `url=http://h bogus debug`, whose middle token is unrecognized. -/
theorem C2_unrecognized_token_fails_witness :
    "bogus".toList ∈ t_strsplit_spaces "url=http://h bogus debug".toList " ".toList ∧
    (fts_elastic_plugin_init_settings (some ⟨[], none⟩) (some fts_elastic_settings_zero)
      (some "url=http://h bogus debug".toList)).1 = -1 :=
  ⟨by decide,
   C2_unrecognized_token_fails (some ⟨[], none⟩) (some fts_elastic_settings_zero)
     "url=http://h bogus debug".toList "bogus".toList
     (by decide) (by decide) (by decide) (by decide) (by decide) (by decide)⟩

/-- C3: for the single token `bulk_size=<v>`, resolution returns -1 when `<v>`
is `0`, starts with a minus sign, is empty or contains a character that is not
a decimal digit; and for every n with 0 < n ≤ UINT_MAX written in decimal it
returns 0 with bulk_size = n. -/
theorem C3_bulk_size_single_token (user : mail_user) (set : fts_elastic_settings) :
    (∀ v : CStr, ' ' ∉ v →
      (v = "0".toList ∨ (∃ w, v = '-' :: w) ∨ v = [] ∨ ∃ c ∈ v, is_digit c = false) →
      (fts_elastic_plugin_init_settings (some user) (some set)
        (some ("bulk_size=".toList ++ v))).1 = -1) ∧
    (∀ n : Nat, 0 < n → n ≤ UINT_MAX →
      fts_elastic_plugin_init_settings (some user) (some set)
          (some ("bulk_size=".toList ++ Nat.toDigits 10 n))
        = (0, some { set with bulk_size := n, refresh_by_fts := true,
                              refresh_on_update := false })) := by
  constructor
  · intro v hsp hv
    rw [init_settings_single_bulk_size user set v hsp]
    have hnondigit : (∃ c ∈ v, is_digit c = false) → str_to_uint v = none := by
      rintro ⟨c, hc, hd⟩
      cases hs : str_to_uint v with
      | none => rfl
      | some n =>
        have := (str_to_uint_all_digits v n hs).2 c hc
        rw [hd] at this
        cases this
    rcases hv with h0 | ⟨w, hw⟩ | hnil | hnd
    · subst h0
      have h : str_to_uint "0".toList = some 0 := by decide
      rw [h]
      rfl
    · rw [hnondigit ⟨'-', by rw [hw]; exact List.mem_cons_self _ _, by decide⟩]
    · subst hnil
      have h : str_to_uint [] = none := by decide
      rw [h]
    · rw [hnondigit hnd]
  · intro n hpos hle
    have hrt := str_to_uint_toDigits n hle
    have hsp : ' ' ∉ Nat.toDigits 10 n := by
      intro hmem
      have := (str_to_uint_all_digits _ n hrt).2 ' ' hmem
      revert this
      decide
    rw [init_settings_single_bulk_size user set _ hsp, hrt]
    simp [Nat.pos_iff_ne_zero.1 hpos]

/-- C3 at `bulk_size=0`, `bulk_size=-1`, `bulk_size=`, `bulk_size=12x` and
`bulk_size=1048576`. -/
theorem C3_bulk_size_single_token_witness :
    (fts_elastic_plugin_init_settings (some ⟨[], none⟩) (some fts_elastic_settings_zero)
      (some "bulk_size=0".toList)).1 = -1 ∧
    (fts_elastic_plugin_init_settings (some ⟨[], none⟩) (some fts_elastic_settings_zero)
      (some "bulk_size=-1".toList)).1 = -1 ∧
    (fts_elastic_plugin_init_settings (some ⟨[], none⟩) (some fts_elastic_settings_zero)
      (some "bulk_size=".toList)).1 = -1 ∧
    (fts_elastic_plugin_init_settings (some ⟨[], none⟩) (some fts_elastic_settings_zero)
      (some "bulk_size=12x".toList)).1 = -1 ∧
    fts_elastic_plugin_init_settings (some ⟨[], none⟩) (some fts_elastic_settings_zero)
        (some "bulk_size=1048576".toList)
      = (0, some { url := none, rawlog_dir := none, bulk_size := 1048576,
                   refresh_on_update := false, refresh_by_fts := true, debug := false }) :=
  ⟨(C3_bulk_size_single_token ⟨[], none⟩ fts_elastic_settings_zero).1 "0".toList
      (by decide) (Or.inl rfl),
   (C3_bulk_size_single_token ⟨[], none⟩ fts_elastic_settings_zero).1 "-1".toList
      (by decide) (Or.inr (Or.inl ⟨"1".toList, rfl⟩)),
   (C3_bulk_size_single_token ⟨[], none⟩ fts_elastic_settings_zero).1 []
      (by decide) (Or.inr (Or.inr (Or.inl rfl))),
   (C3_bulk_size_single_token ⟨[], none⟩ fts_elastic_settings_zero).1 "12x".toList
      (by decide) (Or.inr (Or.inr (Or.inr ⟨'x', by decide, by decide⟩))),
   (C3_bulk_size_single_token ⟨[], none⟩ fts_elastic_settings_zero).2 1048576
      (by decide) (by decide)⟩

/-- C4: when a settings string resolves successfully, the final pair
(refresh_on_update, refresh_by_fts) is the result of applying its `refresh=`
tokens left to right to (false, true), with `never` clearing both flags,
`update` setting the first and `fts` setting the second. -/
theorem C4_refresh_fold (user : Option mail_user) (set : Option fts_elastic_settings)
    (str : CStr) (c : fts_elastic_settings)
    (h : fts_elastic_plugin_init_settings user set (some str) = (0, some c)) :
    (c.refresh_on_update, c.refresh_by_fts) = refresh_spec str := by
  cases user with
  | none => simp [fts_elastic_plugin_init_settings] at h
  | some u =>
    cases set with
    | none => simp [fts_elastic_plugin_init_settings] at h
    | some set0 =>
      simp only [fts_elastic_plugin_init_settings, Prod.mk.injEq, Option.some.injEq] at h
      have := init_settings_loop_refresh _ _ c (Prod.ext h.1 h.2)
      rw [this]
      rfl

/-- C4 at `refresh=update refresh=fts`: both flags end up true. -/
theorem C4_refresh_fold_witness :
    fts_elastic_plugin_init_settings (some ⟨[], none⟩) (some fts_elastic_settings_zero)
        (some "refresh=update refresh=fts".toList)
      = (0, some { url := none, rawlog_dir := none, bulk_size := 5242880,
                   refresh_on_update := true, refresh_by_fts := true, debug := false }) ∧
    refresh_spec "refresh=update refresh=fts".toList = (true, true) ∧
    (true, true) = refresh_spec "refresh=update refresh=fts".toList :=
  ⟨by decide, by decide,
   C4_refresh_fold (some ⟨[], none⟩) (some fts_elastic_settings_zero)
     "refresh=update refresh=fts".toList
     { url := none, rawlog_dir := none, bulk_size := 5242880,
       refresh_on_update := true, refresh_by_fts := true, debug := false } (by decide)⟩

/-- C5: for a NULL string, an empty string and a string of spaces only,
`fts_elastic_plugin_init_settings` returns 0 and sets bulk_size = 5242880,
refresh_by_fts = true, refresh_on_update = false, leaving the other fields of the
record as they were; on the zero-filled record of the user hook the result is
the defaults, with debug = false. -/
theorem C5_empty_string_defaults (user : mail_user) (str : Option CStr)
    (hstr : ∀ s, str = some s → ∀ c ∈ s, c = ' ') :
    (∀ set : fts_elastic_settings,
      fts_elastic_plugin_init_settings (some user) (some set) str
        = (0, some { set with bulk_size := 5242880, refresh_by_fts := true,
                              refresh_on_update := false })) ∧
    fts_elastic_plugin_init_settings (some user) (some p_new_fts_elastic_user.set) str
      = (0, some { url := none, rawlog_dir := none, bulk_size := 5242880,
                   refresh_on_update := false, refresh_by_fts := true, debug := false }) := by
  have key : ∀ set : fts_elastic_settings,
      fts_elastic_plugin_init_settings (some user) (some set) str
        = (0, some { set with bulk_size := 5242880, refresh_by_fts := true,
                              refresh_on_update := false }) := by
    intro set
    have hsplit : ∀ s : CStr, (∀ c ∈ s, c = ' ') → t_strsplit_spaces s " ".toList = [] := by
      intro s hs
      unfold t_strsplit_spaces
      apply split_str_walk_all_separators
      intro c hc
      rw [hs c hc]
      decide
    cases str with
    | none =>
      simp only [fts_elastic_plugin_init_settings, hsplit [] (by simp), init_settings_loop]
    | some s =>
      simp only [fts_elastic_plugin_init_settings, hsplit s (hstr s rfl), init_settings_loop]
  exact ⟨key, key _⟩

/-- C5 at the NULL string, the empty string and a string of three spaces. -/
theorem C5_empty_string_defaults_witness :
    (fts_elastic_plugin_init_settings (some ⟨[], none⟩) (some p_new_fts_elastic_user.set) none
      = (0, some { url := none, rawlog_dir := none, bulk_size := 5242880,
                   refresh_on_update := false, refresh_by_fts := true, debug := false })) ∧
    (fts_elastic_plugin_init_settings (some ⟨[], none⟩) (some p_new_fts_elastic_user.set)
        (some "".toList)
      = (0, some { url := none, rawlog_dir := none, bulk_size := 5242880,
                   refresh_on_update := false, refresh_by_fts := true, debug := false })) ∧
    (fts_elastic_plugin_init_settings (some ⟨[], none⟩) (some p_new_fts_elastic_user.set)
        (some "   ".toList)
      = (0, some { url := none, rawlog_dir := none, bulk_size := 5242880,
                   refresh_on_update := false, refresh_by_fts := true, debug := false })) :=
  ⟨(C5_empty_string_defaults ⟨[], none⟩ none (by intro s h; cases h)).2,
   (C5_empty_string_defaults ⟨[], none⟩ (some "".toList)
      (by intro s h; cases h; intro c hc; cases hc)).2,
   (C5_empty_string_defaults ⟨[], none⟩ (some "   ".toList)
      (by intro s h; cases h; decide)).2⟩

/-- C6: whenever `fts_elastic_plugin_init_settings` returns 0, the resulting
bulk_size is strictly positive, whatever the record held before and however
many `bulk_size=` tokens the string has. -/
theorem C6_bulk_size_positive (user : Option mail_user)
    (set : Option fts_elastic_settings) (str : Option CStr) (c : fts_elastic_settings)
    (h : fts_elastic_plugin_init_settings user set str = (0, some c)) :
    0 < c.bulk_size := by
  cases user with
  | none => simp [fts_elastic_plugin_init_settings] at h
  | some u =>
    cases set with
    | none => simp [fts_elastic_plugin_init_settings] at h
    | some set0 =>
      simp only [fts_elastic_plugin_init_settings, Prod.mk.injEq, Option.some.injEq] at h
      exact init_settings_loop_bulk_size_pos _ _ c (by simp) (Prod.ext h.1 h.2)

/-- C6 at `bulk_size=7 debug bulk_size=3`. -/
theorem C6_bulk_size_positive_witness :
    fts_elastic_plugin_init_settings (some ⟨[], none⟩) (some fts_elastic_settings_zero)
        (some "bulk_size=7 debug bulk_size=3".toList)
      = (0, some { url := none, rawlog_dir := none, bulk_size := 3,
                   refresh_on_update := false, refresh_by_fts := true, debug := true }) ∧
    0 < (3 : Nat) :=
  ⟨by decide,
   C6_bulk_size_positive (some ⟨[], none⟩) (some fts_elastic_settings_zero)
     (some "bulk_size=7 debug bulk_size=3".toList)
     { url := none, rawlog_dir := none, bulk_size := 3,
       refresh_on_update := false, refresh_by_fts := true, debug := true } (by decide)⟩

/-- C7: the user-created hook attaches a configuration exactly when the
`fts_elastic` setting is present and `fts_elastic_plugin_init_settings`
returns 0 on it (from a zero-filled record); the attached configuration is the
record the resolver produced, and otherwise the user is left as it was. -/
theorem C7_user_created_attach (u : mail_user) :
    (∀ s c, mail_user_plugin_getenv u "fts_elastic".toList = some s →
      fts_elastic_plugin_init_settings (some u) (some p_new_fts_elastic_user.set) (some s)
        = (0, some c) →
      fts_elastic_mail_user_created (some u)
        = some { u with fts_elastic_user_module := some { set := c } }) ∧
    (mail_user_plugin_getenv u "fts_elastic".toList = none →
      fts_elastic_mail_user_created (some u) = some u) ∧
    (∀ s, mail_user_plugin_getenv u "fts_elastic".toList = some s →
      (fts_elastic_plugin_init_settings (some u) (some p_new_fts_elastic_user.set)
        (some s)).1 ≠ 0 →
      fts_elastic_mail_user_created (some u) = some u) ∧
    (u.fts_elastic_user_module = none →
      ((∃ u' fuser, fts_elastic_mail_user_created (some u) = some u' ∧
          u'.fts_elastic_user_module = some fuser) ↔
        ∃ s, mail_user_plugin_getenv u "fts_elastic".toList = some s ∧
          (fts_elastic_plugin_init_settings (some u) (some p_new_fts_elastic_user.set)
            (some s)).1 = 0)) := by
  have hfail : ∀ s, mail_user_plugin_getenv u "fts_elastic".toList = some s →
      (fts_elastic_plugin_init_settings (some u) (some p_new_fts_elastic_user.set)
        (some s)).1 ≠ 0 →
      fts_elastic_mail_user_created (some u) = some u := by
    intro s hs hne
    have hcode := init_settings_loop_code (t_strsplit_spaces s " ".toList)
      { p_new_fts_elastic_user.set with bulk_size := 5 * 1024 * 1024,
                                          refresh_by_fts := true,
                                          refresh_on_update := false }
    simp only [fts_elastic_plugin_init_settings] at hne
    have hneg : (init_settings_loop (t_strsplit_spaces s " ".toList)
      { p_new_fts_elastic_user.set with bulk_size := 5 * 1024 * 1024,
                                          refresh_by_fts := true,
                                          refresh_on_update := false }).1 = -1 := by
      rcases hcode with h0 | h1
      · exact absurd h0 hne
      · exact h1
    simp only [fts_elastic_mail_user_created, hs, fts_elastic_mail_user_create,
      fts_elastic_plugin_init_settings, hneg]
    simp
  have hok : ∀ s c, mail_user_plugin_getenv u "fts_elastic".toList = some s →
      fts_elastic_plugin_init_settings (some u) (some p_new_fts_elastic_user.set) (some s)
        = (0, some c) →
      fts_elastic_mail_user_created (some u)
        = some { u with fts_elastic_user_module := some { set := c } } := by
    intro s c hs hc
    exact user_created_of_success u s c hs hc
  have hnone : mail_user_plugin_getenv u "fts_elastic".toList = none →
      fts_elastic_mail_user_created (some u) = some u := by
    intro hn
    simp only [fts_elastic_mail_user_created, hn]
  refine ⟨hok, hnone, hfail, ?_⟩
  intro hu
  constructor
  · rintro ⟨u', fuser, hcr, hmod⟩
    cases hs : mail_user_plugin_getenv u "fts_elastic".toList with
    | none =>
      rw [hnone hs] at hcr
      cases hcr
      rw [hu] at hmod
      cases hmod
    | some s =>
      refine ⟨s, rfl, ?_⟩
      by_contra hne
      rw [hfail s hs hne] at hcr
      cases hcr
      rw [hu] at hmod
      cases hmod
  · rintro ⟨s, hs, h0⟩
    have hc : fts_elastic_plugin_init_settings (some u) (some p_new_fts_elastic_user.set)
        (some s) = (0, some (init_settings_loop (t_strsplit_spaces s " ".toList)
          { p_new_fts_elastic_user.set with bulk_size := 5 * 1024 * 1024,
                                              refresh_by_fts := true,
                                              refresh_on_update := false }).2) := by
      simp only [fts_elastic_plugin_init_settings] at h0 ⊢
      rw [h0]
    exact ⟨_, _, hok s _ hs hc, rfl⟩

/-- C7 at a user whose `fts_elastic` setting is `url=http://h refresh=never`. -/
theorem C7_user_created_attach_witness :
    fts_elastic_mail_user_created
        (some ⟨[("fts_elastic".toList, "url=http://h refresh=never".toList)], none⟩)
      = some ⟨[("fts_elastic".toList, "url=http://h refresh=never".toList)],
              some { set := { url := some "http://h".toList, rawlog_dir := none,
                              bulk_size := 5242880, refresh_on_update := false,
                              refresh_by_fts := false, debug := false } }⟩ :=
  (C7_user_created_attach
    ⟨[("fts_elastic".toList, "url=http://h refresh=never".toList)], none⟩).1
    "url=http://h refresh=never".toList
    { url := some "http://h".toList, rawlog_dir := none, bulk_size := 5242880,
      refresh_on_update := false, refresh_by_fts := false, debug := false }
    (by decide) (by decide)

/-- C8: `fts_elastic_mail_precache` on a message tagged virtual sets
highest_virtual_uid to the maximum of the old watermark and the message uid
(so it never decreases, and a uid not above the watermark leaves it as it was);
on a message not tagged virtual the transaction context is unchanged; the host
state is in both cases the one the previous precache handler left. -/
theorem C8_precache_watermark {σ τ : Type} (super_precache : mail → σ → σ)
    (m : mail) (host : σ) (ft : fts_elastic_transaction_context τ) :
    (fts_elastic_mail_precache super_precache m host ft).1 = super_precache m host ∧
    (m.fmail.virtual_mail = true →
      (fts_elastic_mail_precache super_precache m host ft).2
        = { ft with highest_virtual_uid := max ft.highest_virtual_uid m.uid }) ∧
    (m.fmail.virtual_mail = false →
      (fts_elastic_mail_precache super_precache m host ft).2 = ft) ∧
    ft.highest_virtual_uid
      ≤ (fts_elastic_mail_precache super_precache m host ft).2.highest_virtual_uid ∧
    (m.uid ≤ ft.highest_virtual_uid →
      (fts_elastic_mail_precache super_precache m host ft).2 = ft) := by
  unfold fts_elastic_mail_precache
  cases hv : m.fmail.virtual_mail
  · simp
  · by_cases hlt : ft.highest_virtual_uid < m.uid
    · simp [hlt, Nat.max_eq_right (Nat.le_of_lt hlt), Nat.le_of_lt hlt]
    · simp [hlt, Nat.max_eq_left (Nat.le_of_not_lt hlt)]

/-- C8 at a virtual message with uid 7 on a watermark of 5, and with uid 3 on
a watermark of 5. -/
theorem C8_precache_watermark_witness :
    (fts_elastic_mail_precache (fun (_ : mail) (h : Nat) => h + 1)
        { uid := 7, fmail := { virtual_mail := true } } 0
        { highest_virtual_uid := 5, other := "scores" }).2
      = { highest_virtual_uid := max 5 7, other := "scores" } ∧
    (fts_elastic_mail_precache (fun (_ : mail) (h : Nat) => h + 1)
        { uid := 3, fmail := { virtual_mail := true } } 0
        { highest_virtual_uid := 5, other := "scores" }).2
      = { highest_virtual_uid := 5, other := "scores" } :=
  ⟨(C8_precache_watermark (fun (_ : mail) (h : Nat) => h + 1)
      { uid := 7, fmail := { virtual_mail := true } } 0
      { highest_virtual_uid := 5, other := "scores" }).2.1 rfl,
   (C8_precache_watermark (fun (_ : mail) (h : Nat) => h + 1)
      { uid := 3, fmail := { virtual_mail := true } } 0
      { highest_virtual_uid := 5, other := "scores" }).2.2.2.2 (by decide)⟩

/-- C9: a settings string that resolves from a zero-filled record to a
configuration `c` resolves to `c` again, both into another zero-filled record
and into the record that already holds `c`. -/
theorem C9_resolve_idempotent (user user' : mail_user) (str : CStr)
    (c : fts_elastic_settings)
    (h : fts_elastic_plugin_init_settings (some user) (some p_new_fts_elastic_user.set)
      (some str) = (0, some c)) :
    fts_elastic_plugin_init_settings (some user') (some p_new_fts_elastic_user.set)
      (some str) = (0, some c) ∧
    fts_elastic_plugin_init_settings (some user) (some c) (some str) = (0, some c) := by
  simp only [fts_elastic_plugin_init_settings] at h ⊢
  refine ⟨h, ?_⟩
  simp only [Prod.mk.injEq, Option.some.injEq] at h
  have hloop : init_settings_loop (t_strsplit_spaces str " ".toList)
      { p_new_fts_elastic_user.set with bulk_size := 5 * 1024 * 1024,
                                          refresh_by_fts := true,
                                          refresh_on_update := false } = (0, c) :=
    Prod.ext h.1 h.2
  have hre := init_settings_loop_replay (t_strsplit_spaces str " ".toList) _
    { c with bulk_size := 5 * 1024 * 1024, refresh_by_fts := true,
             refresh_on_update := false } c hloop rfl rfl rfl
    (Or.inr rfl) (Or.inr rfl) (Or.inr rfl)
  rw [hre]

/-- C9 at `url=http://h debug bulk_size=9 refresh=update`. -/
theorem C9_resolve_idempotent_witness :
    fts_elastic_plugin_init_settings (some ⟨[], none⟩) (some p_new_fts_elastic_user.set)
        (some "url=http://h debug bulk_size=9 refresh=update".toList)
      = (0, some { url := some "http://h".toList, rawlog_dir := none, bulk_size := 9,
                   refresh_on_update := true, refresh_by_fts := true, debug := true }) ∧
    fts_elastic_plugin_init_settings (some ⟨[], none⟩)
        (some { url := some "http://h".toList, rawlog_dir := none, bulk_size := 9,
                refresh_on_update := true, refresh_by_fts := true, debug := true })
        (some "url=http://h debug bulk_size=9 refresh=update".toList)
      = (0, some { url := some "http://h".toList, rawlog_dir := none, bulk_size := 9,
                   refresh_on_update := true, refresh_by_fts := true, debug := true }) :=
  ⟨by decide,
   (C9_resolve_idempotent ⟨[], none⟩ ⟨[], none⟩
     "url=http://h debug bulk_size=9 refresh=update".toList
     { url := some "http://h".toList, rawlog_dir := none, bulk_size := 9,
       refresh_on_update := true, refresh_by_fts := true, debug := true } (by decide)).2⟩

/-- C10, as stated, fails: for the setting `fts_elastic = debug`, which has no
`url=` token, resolution returns 0 and the user-created hook attaches a
configuration whose url is NULL. -/
theorem C10_counterexample :
    mail_user_plugin_getenv ⟨[("fts_elastic".toList, "debug".toList)], none⟩
        "fts_elastic".toList = some "debug".toList ∧
    url_tokens "debug".toList = [] ∧
    (fts_elastic_plugin_init_settings
        (some ⟨[("fts_elastic".toList, "debug".toList)], none⟩)
        (some p_new_fts_elastic_user.set) (some "debug".toList)).1 = 0 ∧
    fts_elastic_mail_user_created (some ⟨[("fts_elastic".toList, "debug".toList)], none⟩)
      = some ⟨[("fts_elastic".toList, "debug".toList)],
              some { set := { url := none, rawlog_dir := none, bulk_size := 5242880,
                              refresh_on_update := false, refresh_by_fts := true,
                              debug := true } }⟩ := by
  decide

/-- C10, amended: when the `fts_elastic` setting resolves successfully, the
hook attaches the resolved configuration, and its url is set exactly when the
settings string has a `url=` token; it is then the text after `url=` of the
last such token, and NULL when there is none. -/
theorem C10_url_set_iff_url_token (u : mail_user) (s : CStr) (c : fts_elastic_settings)
    (hs : mail_user_plugin_getenv u "fts_elastic".toList = some s)
    (hc : fts_elastic_plugin_init_settings (some u) (some p_new_fts_elastic_user.set)
      (some s) = (0, some c)) :
    fts_elastic_mail_user_created (some u)
      = some { u with fts_elastic_user_module := some { set := c } } ∧
    (c.url ≠ none ↔ ∃ t ∈ t_strsplit_spaces s " ".toList, "url=".toList <+: t) ∧
    c.url = (match (url_tokens s).getLast? with
             | some t => some (t.drop 4)
             | none => none) := by
  have hurl : c.url = (match (url_tokens s).getLast? with
             | some t => some (t.drop 4)
             | none => none) := by
    simp only [fts_elastic_plugin_init_settings, Prod.mk.injEq, Option.some.injEq] at hc
    have h1 := init_settings_loop_url _ _ c (Prod.ext hc.1 hc.2)
    rw [h1, foldl_keep_last]
    unfold url_tokens
    generalize (List.filter _ _).getLast? = o
    cases o <;> rfl
  refine ⟨user_created_of_success u s c hs hc, ?_, hurl⟩
  rw [hurl]
  cases hl : (url_tokens s).getLast? with
  | none =>
    have hnil : url_tokens s = [] := List.getLast?_eq_none_iff.1 hl
    constructor
    · intro hne
      exact absurd rfl hne
    · rintro ⟨t, ht, hp⟩
      have hmem : t ∈ url_tokens s :=
        List.mem_filter.2 ⟨ht, List.isPrefixOf_iff_prefix.2 hp⟩
      rw [hnil] at hmem
      cases hmem
  | some w =>
    have hmem : w ∈ url_tokens s := List.mem_of_getLast?_eq_some hl
    obtain ⟨hw, hp⟩ := List.mem_filter.1 hmem
    constructor
    · intro _
      exact ⟨w, hw, List.isPrefixOf_iff_prefix.1 hp⟩
    · intro _ hne
      cases hne

/-- C10 (amended) at `url=http://a debug url=http://b`: the last url wins. -/
theorem C10_url_set_iff_url_token_witness :
    fts_elastic_mail_user_created
        (some ⟨[("fts_elastic".toList, "url=http://a debug url=http://b".toList)], none⟩)
      = some ⟨[("fts_elastic".toList, "url=http://a debug url=http://b".toList)],
              some { set := { url := some "http://b".toList, rawlog_dir := none,
                              bulk_size := 5242880, refresh_on_update := false,
                              refresh_by_fts := true, debug := true } }⟩ :=
  (C10_url_set_iff_url_token
    ⟨[("fts_elastic".toList, "url=http://a debug url=http://b".toList)], none⟩
    "url=http://a debug url=http://b".toList
    { url := some "http://b".toList, rawlog_dir := none, bulk_size := 5242880,
      refresh_on_update := false, refresh_by_fts := true, debug := true }
    (by decide) (by decide)).1

end FtsElastic
